/-
Verification of the truelle crawling engine (src/truelle/__init__.py)
against its natural-language specification.

The Python source is shallowly embedded below: pure functions become Lean
functions, the mutable middleware / scheduler / dedup state becomes
explicit state passing, the `CancelRequest` exception becomes an `Option`
result distinct from any returned value, and the duck-typed
Request/Response/item values become explicit sum types.  Machine words in
the SHA-1 fingerprint are `Nat` reduced modulo 2^32.
-/
import Mathlib

set_option maxRecDepth 200000

namespace Truelle

/-! ### 32-bit words as naturals (for hashlib.sha1) -/

/-- Reduce a natural number to a 32-bit word. -/
def w32 (n : Nat) : Nat := n % 4294967296

/-- Left-rotation of a 32-bit word by `s` places (0 < s < 32). -/
def rotl (s n : Nat) : Nat := (n * 2 ^ s + n / 2 ^ (32 - s)) % 4294967296

/-- Big-endian byte rendering of `n` on `k` bytes. -/
def beBytes : Nat → Nat → List Nat
  | 0, _ => []
  | k + 1, n => beBytes k (n / 256) ++ [n % 256]

/-- Group a byte list into big-endian 32-bit words. -/
def bytesToWords : List Nat → List Nat
  | a :: b :: c :: d :: rest => (((a * 256 + b) * 256 + c) * 256 + d) :: bytesToWords rest
  | _ => []

/-- Split a list into chunks of 64 bytes (SHA-1 block size), structurally
recursive on a fuel bounded by the list length (each step removes at least
one element, so `l.length` fuel always suffices). -/
def chunkListF : Nat → List Nat → List (List Nat)
  | 0, _ => []
  | _, [] => []
  | n + 1, a :: l => (a :: l).take 64 :: chunkListF n ((a :: l).drop 64)

/-- Split a list into chunks of 64 bytes (SHA-1 block size). -/
def chunkList (l : List Nat) : List (List Nat) :=
  chunkListF l.length l

/-- Extend the 16 message words of a block to the 80 words of the SHA-1
message schedule. -/
def extendWords (ws : Array Nat) : Array Nat :=
  (List.range 64).foldl
    (fun a _ =>
      a.push (rotl 1 ((((a.getD (a.size - 3) 0) ^^^ a.getD (a.size - 8) 0) ^^^
        a.getD (a.size - 14) 0) ^^^ a.getD (a.size - 16) 0)))
    ws

/-- One of the 80 SHA-1 rounds on the state `(a,b,c,d,e)`. -/
def roundStep (i w : Nat) : Nat × Nat × Nat × Nat × Nat → Nat × Nat × Nat × Nat × Nat
  | (a, b, c, d, e) =>
    let f :=
      if i < 20 then (b &&& c) ||| ((4294967295 ^^^ b) &&& d)
      else if i < 40 then (b ^^^ c) ^^^ d
      else if i < 60 then ((b &&& c) ||| (b &&& d)) ||| (c &&& d)
      else (b ^^^ c) ^^^ d
    let k :=
      if i < 20 then 1518500249
      else if i < 40 then 1859775393
      else if i < 60 then 2400959708
      else 3395469782
    let temp := w32 (rotl 5 a + f + e + k + w)
    (temp, a, rotl 30 b, c, d)

/-- Absorb one 64-byte block into the SHA-1 state. -/
def processChunk (h : Nat × Nat × Nat × Nat × Nat) (chunk : List Nat) :
    Nat × Nat × Nat × Nat × Nat :=
  let ws := extendWords (bytesToWords chunk).toArray
  let st := (List.range 80).foldl (fun st i => roundStep i (ws.getD i 0) st) h
  match h, st with
  | (h0, h1, h2, h3, h4), (a, b, c, d, e) =>
    (w32 (h0 + a), w32 (h1 + b), w32 (h2 + c), w32 (h3 + d), w32 (h4 + e))

/-- SHA-1 padding: append 0x80, zero bytes, and the 64-bit bit length. -/
def sha1Pad (msg : List Nat) : List Nat :=
  msg ++ 128 :: List.replicate ((119 - msg.length % 64) % 64) 0 ++ beBytes 8 (8 * msg.length)

/-- SHA-1 digest (20 bytes) of a byte string, as computed by `hashlib.sha1`. -/
def sha1 (msg : List Nat) : List Nat :=
  let hs := (chunkList (sha1Pad msg)).foldl processChunk
    (1732584193, 4023233417, 2562383102, 271733878, 3285377520)
  beBytes 4 hs.1 ++ beBytes 4 hs.2.1 ++ beBytes 4 hs.2.2.1 ++
    beBytes 4 hs.2.2.2.1 ++ beBytes 4 hs.2.2.2.2

/-! ### UTF-8 encoding and hex rendering (str.encode / .hexdigest()) -/

/-- UTF-8 bytes of one character. -/
def utf8Char (c : Char) : List Nat :=
  let n := c.toNat
  if n < 128 then [n]
  else if n < 2048 then [192 + n / 64, 128 + n % 64]
  else if n < 65536 then [224 + n / 4096, 128 + (n / 64) % 64, 128 + n % 64]
  else [240 + n / 262144, 128 + (n / 4096) % 64, 128 + (n / 64) % 64, 128 + n % 64]

/-- UTF-8 bytes of a string (`str.encode('utf-8')`). -/
def utf8Encode (s : String) : List Nat :=
  s.data.foldr (fun c acc => utf8Char c ++ acc) []

/-- Lowercase hexadecimal digit for a nibble. -/
def hexDigitChar (n : Nat) : Char :=
  if n < 10 then Char.ofNat (48 + n) else Char.ofNat (87 + n)

/-- Two lowercase hex characters of one byte. -/
def byteToHex (b : Nat) : List Char := [hexDigitChar (b / 16), hexDigitChar (b % 16)]

/-- Lowercase hex string of a byte list (`.hexdigest()`). -/
def hexOfBytes (bs : List Nat) : List Char :=
  bs.foldr (fun b acc => byteToHex b ++ acc) []

/-- Python `str.lower()` (character-wise; on the ASCII range, where the
claims live, Python's and Lean's per-character lowering coincide). -/
def pyLower (s : String) : String :=
  ⟨s.data.map Char.toLower⟩

/-- Python `str.upper()` (character-wise). -/
def pyUpper (s : String) : String :=
  ⟨s.data.map Char.toUpper⟩

/-! ### Request / Response data model -/

/-- Request: `url`, `method` (default "get"), optional callback.  Callbacks
are function objects in Python; they are embedded as optional identifiers
resolved in a `CrawlConfig` environment. -/
structure Request where
  url : String
  method : String
  callback : Option Nat
deriving DecidableEq, Repr

/-- PreparedRequest: what `requests.Request(method, url).prepare()` yields —
an HTTP-library object carrying the (upper-cased) method and url, and none
of truelle's `Request` fields. -/
structure PreparedRequest where
  method : String
  url : String
deriving DecidableEq, Repr

/-- Prepare a request for sending (`requests.Request(...).prepare()`
upper-cases the method). -/
def prepare (r : Request) : PreparedRequest :=
  { method := pyUpper r.method, url := r.url }

/-- The value stored in `Response.request`: the code can put either a
truelle `Request` or an HTTP-library `PreparedRequest` there. -/
inductive ReqLike where
  | orig (r : Request)
  | prepared (p : PreparedRequest)
deriving DecidableEq, Repr

/-- Response value object (the lazily-cached selector is outside the core
being verified and carries no information relevant to the claims). -/
structure Response where
  url : String
  status : Nat
  headers : List (String × String)
  body : List Nat
  text : String
  request : ReqLike
deriving DecidableEq, Repr

/-- Raw HTTP-library response as returned by `session.send` (external
collaborator; fields as read by `_build_response`). -/
structure RawResponse where
  url : String
  status_code : Nat
  headers : List (String × String)
  content : List Nat
  text : String
deriving DecidableEq, Repr

/-! ### RequestFingerprinter.fingerprint -/

/-- Fingerprint of a URL string: `hashlib.sha1(url.lower().encode('utf-8')).hexdigest()`.
Python's `str.lower` on the ASCII range coincides with `String.toLower`. -/
def fingerprintUrl (u : String) : String :=
  ⟨hexOfBytes (sha1 (utf8Encode (pyLower u)))⟩

/-- RequestFingerprinter.fingerprint: digest of the lower-cased URL only. -/
def fingerprint (r : Request) : String :=
  fingerprintUrl r.url

/-! ### Downloader -/

/-- Downloader.fetch.  The HTTP transport is the external collaborator
`net : PreparedRequest → RawResponse` (what `session.send` returns).  Note
the source builds the Response with the local `req` — the *prepared*
request — not the incoming `request`:
`req = requests.Request(request.method, request.url).prepare()`;
`return self._build_response(req, res)`. -/
def Downloader.fetch (net : PreparedRequest → RawResponse) (request : Request) : Response :=
  let req := prepare request
  let res := net req
  { url := res.url, status := res.status_code, headers := res.headers,
    body := res.content, text := res.text, request := ReqLike.prepared req }

/-! ### Python values flowing through parse callbacks and to_iterable -/

/-- Universe of duck-typed Python values a parse callback may return or
yield: the scalar types named by `to_iterable` (str, dict, bytes), other
iterables (lists/generators/tuples, represented by `list`), Requests,
Responses, and representative non-iterable non-scalar values. -/
inductive PyVal where
  | str (s : String)
  | bytes (b : List Nat)
  | dict (d : List (String × String))
  | req (r : Request)
  | resp (p : Response)
  | list (xs : List PyVal)
  | pynone
  | int (n : Int)

/-- Crawler.to_iterable: `str`/`dict`/`bytes` become a one-element list;
any other iterable is returned as itself; everything else becomes `[]`. -/
def Crawler.to_iterable : PyVal → List PyVal
  | PyVal.str s => [PyVal.str s]
  | PyVal.dict d => [PyVal.dict d]
  | PyVal.bytes b => [PyVal.bytes b]
  | PyVal.list xs => xs
  | _ => []

/-! ### Middleware chain

A middleware is a pair of hooks over an explicit state `σ` (the mutable
attributes of the middleware objects).  `process_request` returns a
Request, a Response, or the `CancelRequest` signal; `process_response`
returns a Request or a Response. -/

/-- Outcome of one `process_request` call. -/
inductive PRResult where
  | cancel
  | req (r : Request)
  | resp (p : Response)

/-- A Request-or-Response value threaded through the chain. -/
inductive ChVal where
  | req (r : Request)
  | resp (p : Response)

/-- Observable events of one chain invocation: `process_request` of the
middleware at index `i`, a Downloader fetch of `r`, `process_response` of
the middleware at index `i`. -/
inductive Ev where
  | pr (i : Nat)
  | fetchEv (r : Request)
  | ps (i : Nat)
deriving DecidableEq, Repr

/-- A middleware over chain state `σ`. -/
structure SMw (σ : Type) where
  pr : σ → Request → σ × PRResult
  ps : σ → ChVal → σ × ChVal

/-- Result of the forward walk of `MiddlewareChain.process`: final state,
trace of `process_request` events, the `backwards_chain` of middlewares
actually invoked (with their indices), and the value in hand (`none` when
a middleware raised `CancelRequest`). -/
structure FwdOut (σ : Type) where
  state : σ
  trace : List Ev
  bchain : List (Nat × SMw σ)
  result : Option ChVal

/-- Forward walk: `for i, middleware in enumerate(self._middlewares):
backwards_chain.append(middleware); ret = middleware.process_request(ret);
if isinstance(ret, Response): break`, with `raise CancelRequest`
propagating as `none`. -/
def fwdWalk {σ : Type} : Nat → List (SMw σ) → σ → Request → FwdOut σ
  | _, [], s, r => ⟨s, [], [], some (ChVal.req r)⟩
  | i, m :: rest, s, r =>
    match m.pr s r with
    | (s', PRResult.cancel) => ⟨s', [Ev.pr i], [(i, m)], none⟩
    | (s', PRResult.resp p) => ⟨s', [Ev.pr i], [(i, m)], some (ChVal.resp p)⟩
    | (s', PRResult.req r') =>
      let t := fwdWalk (i + 1) rest s' r'
      ⟨t.state, Ev.pr i :: t.trace, (i, m) :: t.bchain, t.result⟩

/-- Result of the backwards walk (which runs in forward order). -/
structure BwdOut (σ : Type) where
  state : σ
  trace : List Ev
  value : ChVal

/-- Backwards walk: `for middleware in backwards_chain:
ret = middleware.process_response(ret)` — the list is in the order the
middlewares were invoked, so first-invoked first. -/
def bwdWalk {σ : Type} : List (Nat × SMw σ) → σ → ChVal → BwdOut σ
  | [], s, v => ⟨s, [], v⟩
  | (i, m) :: rest, s, v =>
    let sv := m.ps s v
    let t := bwdWalk rest sv.1 sv.2
    ⟨t.state, Ev.ps i :: t.trace, t.value⟩

/-- Result of one chain invocation: final state, full event trace, and the
returned value — `none` when `CancelRequest` propagated out of `process`
(a distinct signal, not a return value). -/
structure ChainOut (σ : Type) where
  state : σ
  trace : List Ev
  result : Option ChVal

/-- MiddlewareChain.process: forward walk; if the value in hand is still a
Request, invoke the Downloader's fetch; then run `process_response` over
the backwards chain, threading the value through. -/
def MiddlewareChain.process {σ : Type} (fetch : Request → Response)
    (mws : List (SMw σ)) (s : σ) (r : Request) : ChainOut σ :=
  let fw := fwdWalk 0 mws s r
  match fw.result with
  | none => ⟨fw.state, fw.trace, none⟩
  | some v =>
    let fetched : List Ev × ChVal :=
      match v with
      | ChVal.req r' => ([Ev.fetchEv r'], ChVal.resp (fetch r'))
      | ChVal.resp p => ([], ChVal.resp p)
    let bw := bwdWalk fw.bchain fw.state fetched.2
    ⟨bw.state, fw.trace ++ fetched.1 ++ bw.trace, some bw.value⟩

/-! ### Concrete middlewares of the default Crawler stack -/

/-- DeduplicationMiddleware: state is the `_seen_requests` set of
fingerprint strings; a seen fingerprint raises `CancelRequest`, otherwise
it is inserted and the request passes through.  `process_response` is the
inherited pass-through default. -/
def DeduplicationMiddleware : SMw (List String) :=
  { pr := fun seen r =>
      let fp := fingerprint r
      if fp ∈ seen then (seen, PRResult.cancel)
      else (fp :: seen, PRResult.req r),
    ps := fun seen v => (seen, v) }

/-- HttpCacheMiddleware constructed with default settings (`{}`):
`HTTP_CACHE_ENABLED` absent, so `_enabled` is false and both hooks defer
to the base Middleware's pass-through defaults. -/
def HttpCacheMiddleware.disabled : SMw (List String) :=
  { pr := fun s r => (s, PRResult.req r),
    ps := fun s v => (s, v) }

/-- The middleware list hard-wired by `Crawler.__init__` (dedup first,
then the cache middleware, disabled under default settings). -/
def crawlerChain : List (SMw (List String)) :=
  [DeduplicationMiddleware, HttpCacheMiddleware.disabled]

/-! ### HttpCacheMiddleware read path (enabled) -/

/-- What the filesystem holds at a cache path: nothing (`os.path.exists`
false), a record `pickle.load` fails on, or a pickled Response. -/
inductive CacheEntry where
  | corrupt
  | ok (p : Response)

/-- Pickle deserialization failure (uncaught in the source). -/
structure UnpicklingError where
deriving DecidableEq, Repr

/-- Cache path `os.path.join(self._dir, fingerprint[0:2], fingerprint)`. -/
def cachePath (dir : String) (r : Request) : String :=
  dir ++ "/" ++ String.mk ((fingerprint r).data.take 2) ++ "/" ++ fingerprint r

/-- HttpCacheMiddleware._retrieve_response over an abstract filesystem:
a missing path returns `None`; an existing path is `pickle.load`ed, which
raises on a corrupt record (there is no try/except around it). -/
def retrieve_response (fs : String → Option CacheEntry) (dir : String)
    (r : Request) : Except UnpicklingError (Option Response) :=
  match fs (cachePath dir r) with
  | none => Except.ok none
  | some CacheEntry.corrupt => Except.error {}
  | some (CacheEntry.ok p) => Except.ok (some p)

/-- HttpCacheMiddleware.process_request: when enabled, a retrieved (truthy)
Response short-circuits, `None` passes the request through, and an
exception from `_retrieve_response` propagates. -/
def HttpCacheMiddleware.process_request (enabled : Bool)
    (fs : String → Option CacheEntry) (dir : String) (r : Request) :
    Except UnpicklingError PRResult :=
  if enabled then
    match retrieve_response fs dir r with
    | Except.error e => Except.error e
    | Except.ok (some p) => Except.ok (PRResult.resp p)
    | Except.ok none => Except.ok (PRResult.req r)
  else Except.ok (PRResult.req r)

/-! ### Crawler -/

/-- External collaborators of one Crawler: the HTTP transport and the
environment resolving callback identifiers to parse functions, with
`parseId` naming the spider's own `parse` method. -/
structure CrawlConfig where
  net : PreparedRequest → RawResponse
  cbEnv : Nat → Response → PyVal
  parseId : Nat

/-- Mutable state of one crawl: the Scheduler's FIFO queue and the dedup
middleware's seen-fingerprint set. -/
structure CrawlerState where
  queue : List Request
  seen : List String

/-- Observable events of a crawl run: a Downloader invocation on a
request, or an item yielded to the caller. -/
inductive CrawlEv where
  | fetched (r : Request)
  | item (v : PyVal)

/-- `if not req.callback: req.callback = self._spider.parse`. -/
def defaultCallback (pid : Nat) (r : Request) : Request :=
  match r.callback with
  | none => { url := r.url, method := r.method, callback := some pid }
  | some _ => r

/-- The dispatch loop over one parse result: Requests are re-enqueued (in
order), every other value is yielded as an item (in order). -/
def dispatchResults : List PyVal → List Request × List CrawlEv
  | [] => ([], [])
  | PyVal.req r :: rest =>
    let t := dispatchResults rest
    (r :: t.1, t.2)
  | v :: rest =>
    let t := dispatchResults rest
    (t.1, CrawlEv.item v :: t.2)

/-- Downloader invocations recorded in a chain trace. -/
def chainFetchEvents (evs : List Ev) : List CrawlEv :=
  evs.filterMap (fun e =>
    match e with
    | Ev.fetchEv r => some (CrawlEv.fetched r)
    | _ => none)

/-- Crawler.crawl's `while self._scheduler.has_next()` loop, with explicit
fuel: `some evs` means the queue drained (the run terminated) with event
trace `evs`; `none` means the fuel ran out with requests still pending.
Cancellation drops the request and continues; a chain-returned Request is
re-enqueued; a Response is passed to the popped request's callback and the
normalized results are dispatched. -/
def crawlLoop (cfg : CrawlConfig) : Nat → CrawlerState → Option (List CrawlEv)
  | 0, s => if s.queue.isEmpty then some [] else none
  | n + 1, s =>
    match s.queue with
    | [] => some []
    | req :: rest =>
      let req' := defaultCallback cfg.parseId req
      let out := MiddlewareChain.process (Downloader.fetch cfg.net) crawlerChain s.seen req'
      let fevs := chainFetchEvents out.trace
      match out.result with
      | none => (crawlLoop cfg n ⟨rest, out.state⟩).map (fun evs => fevs ++ evs)
      | some (ChVal.req r2) =>
        (crawlLoop cfg n ⟨rest ++ [r2], out.state⟩).map (fun evs => fevs ++ evs)
      | some (ChVal.resp p) =>
        let parsed := cfg.cbEnv (req'.callback.getD cfg.parseId) p
        let t := dispatchResults (Crawler.to_iterable parsed)
        (crawlLoop cfg n ⟨rest ++ t.1, out.state⟩).map (fun evs => fevs ++ t.2 ++ evs)

/-- Crawler.crawl: seed the Scheduler with the spider's start requests
(the seen-set starts empty for a fresh Crawler) and run the loop. -/
def crawl (cfg : CrawlConfig) (fuel : Nat) (seeds : List Request) : Option (List CrawlEv) :=
  crawlLoop cfg fuel ⟨seeds, []⟩

/-- Requests that reached the Downloader, in order. -/
def fetchedReqs (evs : List CrawlEv) : List Request :=
  evs.filterMap (fun e =>
    match e with
    | CrawlEv.fetched r => some r
    | _ => none)

/-- Items emitted to the Crawler's caller, in order. -/
def itemsOf (evs : List CrawlEv) : List PyVal :=
  evs.filterMap (fun e =>
    match e with
    | CrawlEv.item v => some v
    | _ => none)

/-- Number of Downloader invocations whose request has fingerprint `f`. -/
def countF (f : String) (evs : List CrawlEv) : Nat :=
  ((fetchedReqs evs).filter (fun r => fingerprint r = f)).length

/-! ### Generic middleware-chain lemmas -/

/-- The forward trace records exactly one `process_request` event per
middleware in the backwards chain, in order. -/
theorem fwdWalk_trace {σ : Type} (mws : List (SMw σ)) :
    ∀ (i : Nat) (s : σ) (r : Request),
      (fwdWalk i mws s r).trace = (fwdWalk i mws s r).bchain.map (fun x => Ev.pr x.1) := by
  induction mws with
  | nil => intro i s r; rfl
  | cons m rest ih =>
    intro i s r
    rcases h : m.pr s r with ⟨s', pr⟩
    cases pr <;> simp [fwdWalk, h, ih]

/-- The backwards chain collects consecutive indices starting at the
index the walk was entered with. -/
theorem fwdWalk_idx {σ : Type} (mws : List (SMw σ)) :
    ∀ (i : Nat) (s : σ) (r : Request),
      (fwdWalk i mws s r).bchain.map Prod.fst
        = List.range' i (fwdWalk i mws s r).bchain.length := by
  induction mws with
  | nil => intro i s r; rfl
  | cons m rest ih =>
    intro i s r
    rcases h : m.pr s r with ⟨s', pr⟩
    cases pr <;> simp [fwdWalk, h, ih, List.range'_succ]

/-- The backwards walk records exactly one `process_response` event per
backwards-chain entry, in the same (forward) order. -/
theorem bwdWalk_trace {σ : Type} (bc : List (Nat × SMw σ)) :
    ∀ (s : σ) (v : ChVal),
      (bwdWalk bc s v).trace = bc.map (fun x => Ev.ps x.1) := by
  induction bc with
  | nil => intro s v; rfl
  | cons im rest ih =>
    intro s v
    rcases im with ⟨i, m⟩
    simp [bwdWalk, ih]

/-- The backwards walk threads the value through `process_response` of
each backwards-chain entry in forward order (a left fold). -/
theorem bwdWalk_foldl {σ : Type} (bc : List (Nat × SMw σ)) :
    ∀ (s : σ) (v : ChVal),
      ((bwdWalk bc s v).state, (bwdWalk bc s v).value)
        = bc.foldl (fun sv x => x.2.ps sv.1 sv.2) (s, v) := by
  induction bc with
  | nil => intro s v; rfl
  | cons im rest ih =>
    intro s v
    rcases im with ⟨i, m⟩
    simp only [bwdWalk, List.foldl_cons]
    exact ih (m.ps s v).1 (m.ps s v).2

/-! ### C1: chain short-circuit -/

/-- C1: for every middleware chain and every request, if some middleware's
`process_request` returns a Response (i.e. the forward walk ends with a
Response in hand), then the Downloader's fetch is never invoked, the only
`process_request` events are those of the middlewares invoked up to and
including the short-circuiting one (consecutive indices from 0), and
`process_response` is called on exactly those middlewares, in the same
forward (first-invoked-first) order, threading the Response through; the
final threaded value is returned. -/
theorem chain_short_circuit {σ : Type} (fetch : Request → Response)
    (mws : List (SMw σ)) (s : σ) (r : Request)
    (s1 : σ) (evs1 : List Ev) (bc : List (Nat × SMw σ)) (p : Response)
    (h : fwdWalk 0 mws s r = ⟨s1, evs1, bc, some (ChVal.resp p)⟩) :
    (∀ r', Ev.fetchEv r' ∉ (MiddlewareChain.process fetch mws s r).trace) ∧
    (MiddlewareChain.process fetch mws s r).trace
      = bc.map (fun x => Ev.pr x.1) ++ bc.map (fun x => Ev.ps x.1) ∧
    bc.map Prod.fst = List.range bc.length ∧
    (MiddlewareChain.process fetch mws s r).result
      = some (bwdWalk bc s1 (ChVal.resp p)).value ∧
    ((bwdWalk bc s1 (ChVal.resp p)).state, (bwdWalk bc s1 (ChVal.resp p)).value)
      = bc.foldl (fun sv x => x.2.ps sv.1 sv.2) (s1, ChVal.resp p) := by
  have htr : evs1 = bc.map (fun x => Ev.pr x.1) := by
    have := fwdWalk_trace mws 0 s r
    rw [h] at this
    exact this
  have hidx : bc.map Prod.fst = List.range bc.length := by
    have := fwdWalk_idx mws 0 s r
    rw [h] at this
    simpa [List.range_eq_range'] using this
  have hproc : MiddlewareChain.process fetch mws s r
      = ⟨(bwdWalk bc s1 (ChVal.resp p)).state,
         evs1 ++ [] ++ (bwdWalk bc s1 (ChVal.resp p)).trace,
         some (bwdWalk bc s1 (ChVal.resp p)).value⟩ := by
    simp [MiddlewareChain.process, h]
  refine ⟨?_, ?_, hidx, ?_, bwdWalk_foldl bc s1 (ChVal.resp p)⟩
  · intro r'
    rw [hproc]
    simp [htr, bwdWalk_trace]
  · rw [hproc]
    simp [htr, bwdWalk_trace]
  · rw [hproc]

/-- Concrete middlewares for chain witnesses: a pass-through middleware, a
middleware short-circuiting with a fixed Response, and a cancelling one. -/
def respW : Response :=
  { url := "http://x/w", status := 200, headers := [], body := [], text := "",
    request := ReqLike.orig ⟨"http://x/w", "get", none⟩ }

/-- Pass-through middleware (the base Middleware defaults). -/
def mwPass : SMw Unit :=
  { pr := fun s r => (s, PRResult.req r), ps := fun s v => (s, v) }

/-- Middleware whose `process_request` returns a Response. -/
def mwShort : SMw Unit :=
  { pr := fun s _ => (s, PRResult.resp respW), ps := fun s v => (s, v) }

/-- Middleware whose `process_request` raises `CancelRequest`. -/
def mwCancel : SMw Unit :=
  { pr := fun s _ => (s, PRResult.cancel), ps := fun s v => (s, v) }

/-- Stub downloader for chain witnesses. -/
def fetchW : Request → Response := fun _ => respW

/-- Request used by the chain witnesses. -/
def rW : Request := ⟨"http://x/w", "get", none⟩

/-- Witness for C1: in the chain [pass, short-circuit, pass] the forward
walk ends with a Response at index 1, and the whole invocation performs
exactly `process_request` then `process_response` of middlewares 0 and 1,
in forward order, with no fetch. -/
theorem chain_short_circuit_witness :
    fwdWalk 0 [mwPass, mwShort, mwPass] () rW
      = ⟨(), [Ev.pr 0, Ev.pr 1], [(0, mwPass), (1, mwShort)], some (ChVal.resp respW)⟩ ∧
    (MiddlewareChain.process fetchW [mwPass, mwShort, mwPass] () rW).trace
      = [Ev.pr 0, Ev.pr 1, Ev.ps 0, Ev.ps 1] := by
  refine ⟨rfl, ?_⟩
  have h := chain_short_circuit fetchW [mwPass, mwShort, mwPass] () rW
    () [Ev.pr 0, Ev.pr 1] [(0, mwPass), (1, mwShort)] respW rfl
  rw [h.2.1]
  rfl

/-! ### C2: chain cancellation -/

/-- C2: for every middleware chain and every request, if a middleware
raises `CancelRequest` during the forward walk, the chain invocation
aborts at once: the result is the distinct cancellation signal (`none`,
not a returned value), so no Response is produced, the Downloader is never
invoked, and no middleware at all — including the ones already invoked at
earlier positions — receives `process_response`. -/
theorem chain_cancellation {σ : Type} (fetch : Request → Response)
    (mws : List (SMw σ)) (s : σ) (r : Request)
    (s1 : σ) (evs1 : List Ev) (bc : List (Nat × SMw σ))
    (h : fwdWalk 0 mws s r = ⟨s1, evs1, bc, none⟩) :
    (MiddlewareChain.process fetch mws s r).result = none ∧
    (MiddlewareChain.process fetch mws s r).trace = evs1 ∧
    (∀ r', Ev.fetchEv r' ∉ (MiddlewareChain.process fetch mws s r).trace) ∧
    (∀ i, Ev.ps i ∉ (MiddlewareChain.process fetch mws s r).trace) := by
  have htr : evs1 = bc.map (fun x => Ev.pr x.1) := by
    have := fwdWalk_trace mws 0 s r
    rw [h] at this
    exact this
  have hproc : MiddlewareChain.process fetch mws s r = ⟨s1, evs1, none⟩ := by
    simp [MiddlewareChain.process, h]
  refine ⟨by rw [hproc], by rw [hproc], ?_, ?_⟩
  · intro r'
    rw [hproc]
    simp [htr]
  · intro i
    rw [hproc]
    simp [htr]

/-- Witness for C2: in the chain [pass, cancel, pass] the middleware at
position 1 cancels; the invocation returns the cancellation signal, its
trace is just the two `process_request` events, and nobody's
`process_response` runs. -/
theorem chain_cancellation_witness :
    fwdWalk 0 [mwPass, mwCancel, mwPass] () rW
      = ⟨(), [Ev.pr 0, Ev.pr 1], [(0, mwPass), (1, mwCancel)], none⟩ ∧
    (MiddlewareChain.process fetchW [mwPass, mwCancel, mwPass] () rW).result = none ∧
    Ev.ps 0 ∉ (MiddlewareChain.process fetchW [mwPass, mwCancel, mwPass] () rW).trace := by
  have h := chain_cancellation fetchW [mwPass, mwCancel, mwPass] () rW
    () [Ev.pr 0, Ev.pr 1] [(0, mwPass), (1, mwCancel)] rfl
  exact ⟨rfl, h.1, h.2.2.2 0⟩

/-! ### C8: Crawler.to_iterable -/

/-- C8: `Crawler.to_iterable` normalizes a parse result into an iterable
of zero or more values: a single scalar str/bytes/mapping value becomes a
one-element sequence; any other iterable is returned as itself; any other
value (non-iterable, non-scalar: a Request, a Response, None, a number)
becomes the empty sequence. -/
theorem to_iterable_spec :
    (∀ s, Crawler.to_iterable (PyVal.str s) = [PyVal.str s]) ∧
    (∀ b, Crawler.to_iterable (PyVal.bytes b) = [PyVal.bytes b]) ∧
    (∀ d, Crawler.to_iterable (PyVal.dict d) = [PyVal.dict d]) ∧
    (∀ xs, Crawler.to_iterable (PyVal.list xs) = xs) ∧
    (∀ r, Crawler.to_iterable (PyVal.req r) = []) ∧
    (∀ p, Crawler.to_iterable (PyVal.resp p) = []) ∧
    Crawler.to_iterable PyVal.pynone = [] ∧
    (∀ n, Crawler.to_iterable (PyVal.int n) = []) := by
  refine ⟨fun s => rfl, fun b => rfl, fun d => rfl, fun xs => rfl,
    fun r => rfl, fun p => rfl, rfl, fun n => rfl⟩

/-! ### C6: Response.request after a Downloader fetch -/

/-- C6 (code evaluated at the failing input): `Downloader.fetch` builds
the Response with the local variable `req` — the *prepared* HTTP-library
request, with upper-cased method and none of truelle's Request fields —
rather than the originating `request` it was passed, contradicting
`_build_response`'s own `req: Request` annotation.  In particular for
`Request("http://x/a", "get")` the response's `request` field is the
prepared request and is not the originating Request value. -/
theorem fetch_request_field_is_prepared (net : PreparedRequest → RawResponse)
    (request : Request) :
    (Downloader.fetch net request).request = ReqLike.prepared (prepare request) ∧
    (∀ r : Request, (Downloader.fetch net request).request ≠ ReqLike.orig r) ∧
    (Downloader.fetch net ⟨"http://x/a", "get", none⟩).request
      = ReqLike.prepared ⟨"GET", "http://x/a"⟩ := by
  refine ⟨rfl, fun r hr => ReqLike.noConfusion hr, rfl⟩

/-! ### C7: cache read path -/

/-- Request used in the cache read-path statements. -/
def reqCache : Request := ⟨"http://x/a", "get", none⟩

/-- Filesystem on which every path exists but holds a record
`pickle.load` fails on. -/
def fsCorrupt : String → Option CacheEntry := fun _ => some CacheEntry.corrupt

/-- Counterexample to C7: on a filesystem whose entry for the request's
fingerprint is a corrupt record, the enabled cache middleware's
`process_request` does NOT treat the entry as a miss and pass the request
through — the `pickle.load` failure propagates out, because
`_retrieve_response` guards only `os.path.exists`, not deserialization. -/
theorem corrupt_cache_entry_raises :
    HttpCacheMiddleware.process_request true fsCorrupt ".truelle" reqCache
      = Except.error {} ∧
    HttpCacheMiddleware.process_request true fsCorrupt ".truelle" reqCache
      ≠ Except.ok (PRResult.req reqCache) := by
  exact ⟨rfl, fun hc => Except.noConfusion hc⟩

/-- C7 as amended: a *missing* cache entry is treated as a miss and the
request passes through unchanged; a successfully retrieved entry
short-circuits with the cached Response; but an unreadable (corrupt)
entry is NOT treated as a miss — the deserialization error propagates
out of `process_request`. -/
theorem cache_read_path (fs : String → Option CacheEntry) (dir : String)
    (r : Request) :
    (fs (cachePath dir r) = none →
      HttpCacheMiddleware.process_request true fs dir r = Except.ok (PRResult.req r)) ∧
    (∀ p, fs (cachePath dir r) = some (CacheEntry.ok p) →
      HttpCacheMiddleware.process_request true fs dir r = Except.ok (PRResult.resp p)) ∧
    (fs (cachePath dir r) = some CacheEntry.corrupt →
      HttpCacheMiddleware.process_request true fs dir r = Except.error {}) := by
  refine ⟨fun h => ?_, fun p h => ?_, fun h => ?_⟩ <;>
    simp [HttpCacheMiddleware.process_request, retrieve_response, h]

/-- Witness for the amended C7: on the empty filesystem the entry is
missing and the request passes through unchanged. -/
theorem cache_read_path_witness :
    (fun _ => (none : Option CacheEntry)) (cachePath ".truelle" reqCache) = none ∧
    HttpCacheMiddleware.process_request true (fun _ => none) ".truelle" reqCache
      = Except.ok (PRResult.req reqCache) := by
  exact ⟨rfl, (cache_read_path (fun _ => none) ".truelle" reqCache).1 rfl⟩

/-! ### C4: fingerprint determinism and digest shape -/

/-- The sixteen lowercase hexadecimal characters. -/
def hexChars : List Char := "0123456789abcdef".data

theorem beBytes_length (k : Nat) : ∀ n, (beBytes k n).length = k := by
  induction k with
  | zero => intro n; rfl
  | succ k ih => intro n; simp [beBytes, ih]

theorem beBytes_lt (k : Nat) : ∀ n, ∀ b ∈ beBytes k n, b < 256 := by
  induction k with
  | zero => intro n b hb; simp [beBytes] at hb
  | succ k ih =>
    intro n b hb
    simp only [beBytes, List.mem_append, List.mem_singleton] at hb
    rcases hb with hb | hb
    · exact ih _ b hb
    · subst hb; exact Nat.mod_lt _ (by norm_num)

theorem sha1_length (msg : List Nat) : (sha1 msg).length = 20 := by
  simp [sha1, beBytes_length]

theorem sha1_lt (msg : List Nat) : ∀ b ∈ sha1 msg, b < 256 := by
  intro b hb
  simp only [sha1, List.mem_append] at hb
  rcases hb with ((((hb | hb) | hb) | hb) | hb) <;> exact beBytes_lt 4 _ b hb

theorem hexDigitChar_mem : ∀ n < 16, hexDigitChar n ∈ hexChars := by
  decide

theorem byteToHex_mem (b : Nat) (hb : b < 256) : ∀ c ∈ byteToHex b, c ∈ hexChars := by
  intro c hc
  have h1 : b / 16 < 16 := Nat.div_lt_of_lt_mul (by omega)
  have h2 : b % 16 < 16 := Nat.mod_lt _ (by norm_num)
  simp only [byteToHex, List.mem_cons, List.mem_singleton, List.not_mem_nil] at hc
  rcases hc with hc | hc | hc
  · subst hc; exact hexDigitChar_mem _ h1
  · subst hc; exact hexDigitChar_mem _ h2
  · exact absurd hc (by simp)

theorem hexOfBytes_cons (b : Nat) (bs : List Nat) :
    hexOfBytes (b :: bs) = byteToHex b ++ hexOfBytes bs := rfl

theorem hexOfBytes_length (bs : List Nat) : (hexOfBytes bs).length = 2 * bs.length := by
  induction bs with
  | nil => rfl
  | cons b bs ih =>
    rw [hexOfBytes_cons, List.length_append, ih]
    simp [byteToHex]
    omega

theorem hexOfBytes_mem (bs : List Nat) (hbs : ∀ b ∈ bs, b < 256) :
    ∀ c ∈ hexOfBytes bs, c ∈ hexChars := by
  induction bs with
  | nil => intro c hc; simp [hexOfBytes] at hc
  | cons b bs ih =>
    intro c hc
    simp only [hexOfBytes, List.foldr_cons, List.mem_append] at hc
    rcases hc with hc | hc
    · exact byteToHex_mem b (hbs b (by simp)) c hc
    · exact ih (fun x hx => hbs x (by simp [hx])) c hc

/-- C4: the fingerprint is a pure function of the lower-cased URL only —
two requests whose URLs agree after lowering (whatever their method or
callback) fingerprint identically — and each fingerprint is the
lowercase-hex rendering (40 lowercase hex characters) of the 160-bit
(20-byte) SHA-1 digest of the UTF-8 bytes of the lower-cased URL. -/
theorem fingerprint_spec (r1 r2 : Request)
    (h : pyLower r1.url = pyLower r2.url) :
    fingerprint r1 = fingerprint r2 ∧
    fingerprint r1 = ⟨hexOfBytes (sha1 (utf8Encode (pyLower r1.url)))⟩ ∧
    (sha1 (utf8Encode (pyLower r1.url))).length = 20 ∧
    (fingerprint r1).length = 40 ∧
    (∀ c ∈ (fingerprint r1).data, c ∈ hexChars) := by
  refine ⟨?_, rfl, sha1_length _, ?_, ?_⟩
  · show fingerprintUrl r1.url = fingerprintUrl r2.url
    unfold fingerprintUrl
    rw [h]
  · show (hexOfBytes (sha1 (utf8Encode (pyLower r1.url)))).length = 40
    rw [hexOfBytes_length, sha1_length]
  · intro c hc
    exact hexOfBytes_mem _ (sha1_lt _) c hc

/-- Witness for C4: two concrete requests whose URLs differ only in ASCII
case and whose methods differ nevertheless share one fingerprint, of
length 40. -/
theorem fingerprint_spec_witness :
    pyLower (Request.mk "http://X/a" "get" none).url
      = pyLower (Request.mk "HTTP://x/A" "post" none).url ∧
    fingerprint ⟨"http://X/a", "get", none⟩ = fingerprint ⟨"HTTP://x/A", "post", none⟩ ∧
    (fingerprint ⟨"http://X/a", "get", none⟩).length = 40 := by
  have h : pyLower (Request.mk "http://X/a" "get" none).url
      = pyLower (Request.mk "HTTP://x/A" "post" none).url := by rfl
  have hs := fingerprint_spec ⟨"http://X/a", "get", none⟩ ⟨"HTTP://x/A", "post", none⟩ h
  exact ⟨h, hs.1, hs.2.2.2.1⟩

/-! ### Behavior of the default middleware stack and the crawl loop -/

/-- Defaulting the callback leaves the url (hence the fingerprint)
untouched. -/
theorem fingerprint_defaultCallback (pid : Nat) (r : Request) :
    fingerprint (defaultCallback pid r) = fingerprint r := by
  unfold defaultCallback
  cases r.callback <;> rfl

/-- With the default stack, a request whose fingerprint is already in the
dedup seen-set is cancelled by the first middleware: no fetch, no
`process_response`, state unchanged. -/
theorem chain_seen (f : Request → Response) (seen : List String) (r : Request)
    (h : fingerprint r ∈ seen) :
    MiddlewareChain.process f crawlerChain seen r = ⟨seen, [Ev.pr 0], none⟩ := by
  simp [MiddlewareChain.process, crawlerChain, fwdWalk, DeduplicationMiddleware, h]

/-- With the default stack, a request with a fresh fingerprint passes both
middlewares, is fetched, and both middlewares' pass-through
`process_response` hooks run in forward order. -/
theorem chain_new (f : Request → Response) (seen : List String) (r : Request)
    (h : fingerprint r ∉ seen) :
    MiddlewareChain.process f crawlerChain seen r
      = ⟨fingerprint r :: seen,
         [Ev.pr 0, Ev.pr 1, Ev.fetchEv r, Ev.ps 0, Ev.ps 1],
         some (ChVal.resp (f r))⟩ := by
  simp [MiddlewareChain.process, crawlerChain, fwdWalk, bwdWalk,
    DeduplicationMiddleware, HttpCacheMiddleware.disabled, h]

/-- With the default stack the chain never returns a Request: its outcome
is either the cancellation signal or a Response. -/
theorem chain_never_returns_request (f : Request → Response) (seen : List String)
    (r r2 : Request) :
    (MiddlewareChain.process f crawlerChain seen r).result ≠ some (ChVal.req r2) := by
  by_cases h : fingerprint r ∈ seen
  · rw [chain_seen f seen r h]; simp
  · rw [chain_new f seen r h]; simp

/-- A popped request whose fingerprint is already seen is dropped with no
error and no event, and the loop continues on the rest of the queue. -/
theorem crawlLoop_step_cancel (cfg : CrawlConfig) (n : Nat) (req : Request)
    (rest : List Request) (seen : List String)
    (h : fingerprint req ∈ seen) :
    crawlLoop cfg (n + 1) ⟨req :: rest, seen⟩ = crawlLoop cfg n ⟨rest, seen⟩ := by
  have h' : fingerprint (defaultCallback cfg.parseId req) ∈ seen := by
    rw [fingerprint_defaultCallback]; exact h
  simp only [crawlLoop, chain_seen _ seen _ h']
  cases crawlLoop cfg n ⟨rest, seen⟩ <;> simp [chainFetchEvents]

/-- The parse result produced for a popped request with a fresh
fingerprint: its (defaulted) callback applied to the fetched Response. -/
def stepParsed (cfg : CrawlConfig) (req : Request) : PyVal :=
  cfg.cbEnv ((defaultCallback cfg.parseId req).callback.getD cfg.parseId)
    (Downloader.fetch cfg.net (defaultCallback cfg.parseId req))

/-- A popped request with a fresh fingerprint is fetched; its parse result
is normalized and dispatched: Requests are appended to the queue, other
values are emitted after the fetch event. -/
theorem crawlLoop_step_new (cfg : CrawlConfig) (n : Nat) (req : Request)
    (rest : List Request) (seen : List String)
    (h : fingerprint req ∉ seen) :
    crawlLoop cfg (n + 1) ⟨req :: rest, seen⟩
      = (crawlLoop cfg n
          ⟨rest ++ (dispatchResults (Crawler.to_iterable (stepParsed cfg req))).1,
           fingerprint req :: seen⟩).map
          (fun evs => CrawlEv.fetched (defaultCallback cfg.parseId req)
            :: (dispatchResults (Crawler.to_iterable (stepParsed cfg req))).2 ++ evs) := by
  have h' : fingerprint (defaultCallback cfg.parseId req) ∉ seen := by
    rw [fingerprint_defaultCallback]; exact h
  simp only [crawlLoop, chain_new _ seen _ h', fingerprint_defaultCallback, stepParsed,
    chainFetchEvents, List.filterMap]
  rfl

/-- Dispatching a parse result emits only item events, never fetch
events. -/
theorem fetchedReqs_dispatch (l : List PyVal) :
    fetchedReqs (dispatchResults l).2 = [] := by
  induction l with
  | nil => rfl
  | cons v rest ih =>
    cases v <;> simp [dispatchResults, fetchedReqs, List.filterMap_cons] at * <;> exact ih

/-- Fetch count of a step's event block: the fetch of `r` plus whatever
the continuation fetches (the step's item events contribute nothing). -/
theorem countF_step (f : String) (r : Request) (items evs : List CrawlEv)
    (hitems : fetchedReqs items = []) :
    countF f (CrawlEv.fetched r :: items ++ evs)
      = (if fingerprint r = f then 1 else 0) + countF f evs := by
  simp only [countF, fetchedReqs, List.filterMap_cons, List.filterMap_append]
  have : List.filterMap
      (fun e => match e with | CrawlEv.fetched r => some r | _ => none) items = [] := hitems
  rw [this]
  by_cases hf : fingerprint r = f <;> simp [hf, List.filter_cons] <;> omega

/-- Invariant: a completed run fetches each fingerprint at most once, and
never fetches a fingerprint that was already in the seen-set at entry. -/
theorem crawl_count_le (cfg : CrawlConfig) :
    ∀ (fuel : Nat) (q : List Request) (seen : List String) (evs : List CrawlEv) (f : String),
      crawlLoop cfg fuel ⟨q, seen⟩ = some evs →
      countF f evs ≤ 1 ∧ (f ∈ seen → countF f evs = 0) := by
  intro fuel
  induction fuel with
  | zero =>
    intro q seen evs f h
    match q with
    | [] =>
      simp [crawlLoop] at h
      subst h
      exact ⟨by simp [countF, fetchedReqs], fun _ => by simp [countF, fetchedReqs]⟩
    | req :: rest => simp [crawlLoop] at h
  | succ n ih =>
    intro q seen evs f h
    match q with
    | [] =>
      simp [crawlLoop] at h
      subst h
      exact ⟨by simp [countF, fetchedReqs], fun _ => by simp [countF, fetchedReqs]⟩
    | req :: rest =>
      by_cases hmem : fingerprint req ∈ seen
      · rw [crawlLoop_step_cancel cfg n req rest seen hmem] at h
        exact ih rest seen evs f h
      · rw [crawlLoop_step_new cfg n req rest seen hmem] at h
        obtain ⟨evs', hevs', rfl⟩ := Option.map_eq_some'.mp h
        have hih := ih _ _ evs' f hevs'
        rw [countF_step f _ _ evs' (fetchedReqs_dispatch _)]
        rw [fingerprint_defaultCallback]
        constructor
        · by_cases hf : fingerprint req = f
          · have h0 : countF f evs' = 0 := hih.2 (by simp [hf])
            simp [hf, h0]
          · simpa [hf] using hih.1
        · intro hfseen
          have hf : fingerprint req ≠ f := fun he => hmem (he ▸ hfseen)
          have h0 : countF f evs' = 0 := hih.2 (by simp [hfseen])
          simp [hf, h0]

/-- Invariant: every request in the queue either has its fingerprint
already in the seen-set, or some request with its fingerprint is fetched
during a completed run. -/
theorem crawl_reached (cfg : CrawlConfig) :
    ∀ (fuel : Nat) (q : List Request) (seen : List String) (evs : List CrawlEv) (r : Request),
      crawlLoop cfg fuel ⟨q, seen⟩ = some evs → r ∈ q →
      fingerprint r ∈ seen ∨ 1 ≤ countF (fingerprint r) evs := by
  intro fuel
  induction fuel with
  | zero =>
    intro q seen evs r h hr
    match q with
    | [] => simp at hr
    | req :: rest => simp [crawlLoop] at h
  | succ n ih =>
    intro q seen evs r h hr
    match q with
    | [] => simp at hr
    | req :: rest =>
      by_cases hmem : fingerprint req ∈ seen
      · rw [crawlLoop_step_cancel cfg n req rest seen hmem] at h
        rcases List.mem_cons.mp hr with rfl | hr'
        · exact Or.inl hmem
        · exact ih rest seen evs r h hr'
      · rw [crawlLoop_step_new cfg n req rest seen hmem] at h
        obtain ⟨evs', hevs', rfl⟩ := Option.map_eq_some'.mp h
        rw [countF_step _ _ _ evs' (fetchedReqs_dispatch _), fingerprint_defaultCallback]
        rcases List.mem_cons.mp hr with rfl | hr'
        · right; simp
        · have hmem' : r ∈ rest ++ (dispatchResults (Crawler.to_iterable (stepParsed cfg req))).1 :=
            List.mem_append_left _ hr'
          rcases ih _ _ evs' r hevs' hmem' with hseen' | hcnt
          · rcases List.mem_cons.mp hseen' with heq | hseen
            · right; simp [heq]
            · exact Or.inl hseen
          · right
            calc 1 ≤ countF (fingerprint r) evs' := hcnt
              _ ≤ _ := Nat.le_add_left _ _

/-! ### Concrete crawl scenarios -/

/-- Stub HTTP transport echoing the prepared request's url with an empty
body. -/
def netC5 (p : PreparedRequest) : RawResponse :=
  ⟨p.url, 200, [], [], ""⟩

/-- Seed request of the end-to-end scenario. -/
def reqA : Request := ⟨"http://x/a", "get", none⟩

/-- Request produced by the first parse. -/
def reqB : Request := ⟨"http://x/b", "get", none⟩

/-- Seed differing from `reqA` only in ASCII case. -/
def reqAup : Request := ⟨"HTTP://X/A", "get", none⟩

/-- Parse callback of the end-to-end scenario: on the first response a new
Request plus "item1", on the second just "item2". -/
def parseC5 (i : Nat) (p : Response) : PyVal :=
  if p.url = "http://x/a" then PyVal.list [PyVal.req reqB, PyVal.str "item1"]
  else PyVal.list [PyVal.str "item2"]

/-- Crawler configuration of the end-to-end scenario (the spider's `parse`
is callback 0). -/
def cfgC5 : CrawlConfig := ⟨netC5, parseC5, 0⟩

/-- Event trace of the end-to-end runs: fetch a, yield "item1", fetch b,
yield "item2". -/
def evsAB : List CrawlEv :=
  [CrawlEv.fetched ⟨"http://x/a", "get", some 0⟩, CrawlEv.item (PyVal.str "item1"),
   CrawlEv.fetched ⟨"http://x/b", "get", some 0⟩, CrawlEv.item (PyVal.str "item2")]

/-! ### C3: deduplication -/

/-- C3: in a completed run of one Crawler instance (fresh, empty seen-set)
over any seed list, any fingerprint carried by at least one seed reaches
the Downloader exactly once; moreover the Deduplication Middleware cancels
every request whose fingerprint is already in the seen-set and otherwise
inserts the fingerprint and passes the request through, and the Crawler
silently drops a cancelled request — no event, no error — and continues
the loop. -/
theorem dedup_exactly_once (cfg : CrawlConfig) (fuel : Nat) (q0 : List Request)
    (evs : List CrawlEv) (r0 : Request)
    (hrun : crawlLoop cfg fuel ⟨q0, []⟩ = some evs)
    (hr : r0 ∈ q0) :
    countF (fingerprint r0) evs = 1 ∧
    (∀ seen r, fingerprint r ∈ seen →
      DeduplicationMiddleware.pr seen r = (seen, PRResult.cancel)) ∧
    (∀ seen r, fingerprint r ∉ seen →
      DeduplicationMiddleware.pr seen r = (fingerprint r :: seen, PRResult.req r)) ∧
    (∀ (n : Nat) (req : Request) (rest : List Request) (seen : List String),
      fingerprint req ∈ seen →
      crawlLoop cfg (n + 1) ⟨req :: rest, seen⟩ = crawlLoop cfg n ⟨rest, seen⟩) := by
  refine ⟨?_, ?_, ?_, fun n req rest seen h => crawlLoop_step_cancel cfg n req rest seen h⟩
  · have hle := (crawl_count_le cfg fuel q0 [] evs (fingerprint r0) hrun).1
    have hge := crawl_reached cfg fuel q0 [] evs r0 hrun hr
    rcases hge with habs | hge
    · simp at habs
    · omega
  · intro seen r h
    simp [DeduplicationMiddleware, h]
  · intro seen r h
    simp [DeduplicationMiddleware, h]

/-- Witness for C3: seeds `http://x/a` and `HTTP://X/A` share a
fingerprint; the completed run fetches that fingerprint exactly once. -/
theorem dedup_exactly_once_witness :
    crawlLoop cfgC5 3 ⟨[reqA, reqAup], []⟩ = some evsAB ∧
    reqA ∈ [reqA, reqAup] ∧
    countF (fingerprint reqA) evsAB = 1 := by
  have hrun : crawlLoop cfgC5 3 ⟨[reqA, reqAup], []⟩ = some evsAB := by rfl
  exact ⟨hrun, by simp,
    (dedup_exactly_once cfgC5 3 [reqA, reqAup] evsAB reqA hrun (by simp)).1⟩

/-! ### C5: end-to-end run -/

/-- C5: with seed [Request("http://x/a")] and the scenario parse callback,
one Crawler.crawl() run terminates emitting exactly ["item1", "item2"] in
that order and invokes the Downloader exactly twice, first for
http://x/a and then for http://x/b. -/
theorem crawl_end_to_end :
    crawl cfgC5 3 [reqA] = some evsAB ∧
    itemsOf evsAB = [PyVal.str "item1", PyVal.str "item2"] ∧
    (fetchedReqs evsAB).map Request.url = ["http://x/a", "http://x/b"] ∧
    (fetchedReqs evsAB).length = 2 := by
  exact ⟨by rfl, rfl, rfl, rfl⟩

/-! ### C9: requests re-enqueued from the chain -/

/-- C9: with the default middleware stack, a Request whose fingerprint was
inserted into the seen-set on a first pass (as any chain-returned,
re-enqueued Request's would have been) is cancelled by the Deduplication
Middleware when popped again: the chain result is the cancellation signal,
the Downloader is not invoked, and the Crawler drops the request
producing no items and no events at all; furthermore the default chain in
fact never returns a Request, so the re-enqueue path can never introduce
a request that would reach the Downloader later. -/
theorem requeued_request_cancelled (cfg : CrawlConfig) (n : Nat)
    (req : Request) (rest : List Request) (seen : List String)
    (h : fingerprint req ∈ seen) :
    (MiddlewareChain.process (Downloader.fetch cfg.net) crawlerChain seen
        (defaultCallback cfg.parseId req)).result = none ∧
    chainFetchEvents (MiddlewareChain.process (Downloader.fetch cfg.net) crawlerChain seen
        (defaultCallback cfg.parseId req)).trace = [] ∧
    crawlLoop cfg (n + 1) ⟨req :: rest, seen⟩ = crawlLoop cfg n ⟨rest, seen⟩ ∧
    (∀ (f : Request → Response) (s' : List String) (r' r2 : Request),
      (MiddlewareChain.process f crawlerChain s' r').result ≠ some (ChVal.req r2)) := by
  have h' : fingerprint (defaultCallback cfg.parseId req) ∈ seen := by
    rw [fingerprint_defaultCallback]; exact h
  refine ⟨?_, ?_, crawlLoop_step_cancel cfg n req rest seen h,
    fun f s' r' r2 => chain_never_returns_request f s' r' r2⟩
  · rw [chain_seen _ seen _ h']
  · rw [chain_seen _ seen _ h']
    rfl

/-- Witness for C9: with `http://x/a`'s fingerprint already seen, popping
`reqA` again is cancelled. -/
theorem requeued_request_cancelled_witness :
    fingerprint reqA ∈ [fingerprint reqA] ∧
    (MiddlewareChain.process (Downloader.fetch cfgC5.net) crawlerChain [fingerprint reqA]
        (defaultCallback cfgC5.parseId reqA)).result = none := by
  have h : fingerprint reqA ∈ [fingerprint reqA] := List.mem_singleton.mpr rfl
  exact ⟨h, (requeued_request_cancelled cfgC5 0 reqA [] [fingerprint reqA] h).1⟩

/-! ### C10: a bare Request returned by a parse callback -/

/-- C10: when a parse callback returns a single bare Request (not wrapped
in an iterable), `to_iterable` normalizes it to the empty sequence — a
Request is neither a str/bytes/mapping scalar nor an iterable — so the
Request is silently discarded: the crawl step enqueues nothing (the
continuation queue is just the rest) and emits no item (the only event is
the fetch of the popped request). -/
theorem bare_request_result_discarded (cfg : CrawlConfig) (n : Nat)
    (req : Request) (rest : List Request) (seen : List String) (b : Request)
    (hns : fingerprint req ∉ seen)
    (hcb : stepParsed cfg req = PyVal.req b) :
    Crawler.to_iterable (PyVal.req b) = [] ∧
    crawlLoop cfg (n + 1) ⟨req :: rest, seen⟩
      = (crawlLoop cfg n ⟨rest, fingerprint req :: seen⟩).map
          (fun evs => CrawlEv.fetched (defaultCallback cfg.parseId req) :: evs) := by
  refine ⟨rfl, ?_⟩
  rw [crawlLoop_step_new cfg n req rest seen hns, hcb]
  simp [dispatchResults, Crawler.to_iterable]

/-- Parse callback returning a single bare Request. -/
def cbBare (i : Nat) (p : Response) : PyVal := PyVal.req reqB

/-- Crawler configuration whose parse callback returns a bare Request. -/
def cfgBare : CrawlConfig := ⟨netC5, cbBare, 0⟩

/-- Witness for C10: with the bare-Request callback, the step for `reqA`
fetches it and then discards the returned Request: nothing is enqueued
and nothing is emitted. -/
theorem bare_request_result_discarded_witness :
    fingerprint reqA ∉ ([] : List String) ∧
    stepParsed cfgBare reqA = PyVal.req reqB ∧
    crawlLoop cfgBare 1 ⟨[reqA], []⟩
      = (crawlLoop cfgBare 0 ⟨[], [fingerprint reqA]⟩).map
          (fun evs => CrawlEv.fetched (defaultCallback cfgBare.parseId reqA) :: evs) := by
  have h1 : fingerprint reqA ∉ ([] : List String) := by simp
  have h2 : stepParsed cfgBare reqA = PyVal.req reqB := rfl
  exact ⟨h1, h2, (bare_request_result_discarded cfgBare 0 reqA [] [] reqB h1 h2).2⟩

end Truelle
